import Mathlib

/-!
Verification of the Cloud Spanner emulator's DDL-parsing and admin-handler
behavior.  The development shallowly embeds:

* the balanced-parenthesis expression scan and the fragment of the DDL
  grammar (CREATE TABLE / ALTER TABLE) exercised by the parser tests in
  `backend/schema/parser/ddl_parser_test.cc`;
* the `UpdateDatabaseDdl` and `ListDatabases` admin handlers from
  `frontend/handlers/databases.cc`;
* the operation tracker from `frontend/collections/operation_manager.h`;
* the foreign-key schema node from `backend/schema/catalog/foreign_key.h`.

The DDL parser implementation itself is not among the provided sources (only
its test file is), so the parser definitions below are modelled from the
specification's grammar and design notes and checked against the expected
outputs recorded in the test file.
-/

/-! ## Status codes and errors (absl::Status) -/

/-- Error categories surfaced by the emulator core (absl status codes). -/
inductive StatusCode where
  | ok
  | invalidArgument
  | unimplemented
  | alreadyExists
  | notFound
  | failedPrecondition
deriving DecidableEq, Repr

/-- A non-ok status: a code together with a user-visible message. -/
structure ErrorStatus where
  code : StatusCode
  message : String
deriving DecidableEq, Repr

/-! ## Balanced-parenthesis expression scan

Modelled from the spec: "Implement the balanced-paren scan as a state machine
that tracks: inside-string state keyed by delimiter shape, raw-mode flag (to
skip escape-aware lookahead), and paren depth.  The scan is the sole authority
for where an expression ends."  String literals recognize the four delimiter
shapes with optional case-insensitive prefix letters r, b, rb, br. -/

/-- Delimiter shape of a string or bytes literal: a single or a triple quote,
built from one of the two quote characters. -/
inductive StrMode where
  | single (q : Char)
  | triple (q : Char)
deriving DecidableEq, Repr

/-- Tests whether a character can open a string literal body. -/
def isQuoteChar (c : Char) : Bool := c = '\'' || c = '"'

/-- Tests for the raw-string literal letter. -/
def isRawChar (c : Char) : Bool := c = 'r' || c = 'R'

/-- Tests for the bytes literal letter. -/
def isBytesChar (c : Char) : Bool := c = 'b' || c = 'B'

/-- Recognizes an opening quote at the head of the input: a triple quote when
the next three characters coincide, a single quote otherwise.  Returns the
consumed opening characters, the delimiter shape, and the remaining input. -/
def quoteStart : List Char → Option (List Char × StrMode × List Char)
  | q :: q2 :: q3 :: rest =>
    if isQuoteChar q then
      if q2 = q && q3 = q then some ([q, q, q], StrMode.triple q, rest)
      else some ([q], StrMode.single q, q2 :: q3 :: rest)
    else none
  | q :: rest => if isQuoteChar q then some ([q], StrMode.single q, rest) else none
  | [] => none

/-- Recognizes the start of a string or bytes literal, including the optional
r / b / rb / br prefix letters (case-insensitive, either order).  Returns the
consumed opening characters, the delimiter shape, the raw-mode flag, and the
remaining input. -/
def stringStart (l : List Char) : Option (List Char × StrMode × Bool × List Char) :=
  match quoteStart l with
  | some (op, m, rest) => some (op, m, false, rest)
  | none =>
    match l with
    | [] => none
    | c1 :: t1 =>
      if isRawChar c1 then
        match quoteStart t1 with
        | some (op, m, rest) => some (c1 :: op, m, true, rest)
        | none =>
          match t1 with
          | c2 :: t2 =>
            if isBytesChar c2 then
              match quoteStart t2 with
              | some (op, m, rest) => some (c1 :: c2 :: op, m, true, rest)
              | none => none
            else none
          | [] => none
      else if isBytesChar c1 then
        match quoteStart t1 with
        | some (op, m, rest) => some (c1 :: op, m, false, rest)
        | none =>
          match t1 with
          | c2 :: t2 =>
            if isRawChar c2 then
              match quoteStart t2 with
              | some (op, m, rest) => some (c1 :: c2 :: op, m, true, rest)
              | none => none
            else none
          | [] => none
      else none

/-- Prepends already-consumed characters onto a scan result. -/
def consScan (a : List Char) : Option (List Char × List Char) → Option (List Char × List Char)
  | some (inner, rest) => some (a ++ inner, rest)
  | none => none

/-- Modelled from the spec: the balanced-parenthesis expression scan.  Called
just after the opening parenthesis of an expression body, it consumes source
characters until the parenthesis depth would drop below zero, tracking
inside-string state (delimiter shape and raw flag) so that parentheses inside
string and bytes literals are ignored.  Returns the characters strictly before
the terminating close parenthesis and the input after it.  The `fuel`
argument bounds recursion; callers pass the input length plus one. -/
def scanExpr : Nat → Nat → Option (StrMode × Bool) → List Char → Option (List Char × List Char)
  | 0, _, _, _ => none
  | _ + 1, _, _, [] => none
  | fuel + 1, depth, none, c :: cs =>
    if c = ')' then
      match depth with
      | 0 => some ([], cs)
      | d + 1 => consScan [c] (scanExpr fuel d none cs)
    else if c = '(' then consScan [c] (scanExpr fuel (depth + 1) none cs)
    else
      match stringStart (c :: cs) with
      | some (op, m, raw, rest) => consScan op (scanExpr fuel depth (some (m, raw)) rest)
      | none => consScan [c] (scanExpr fuel depth none cs)
  | fuel + 1, depth, some (StrMode.single q, raw), c :: cs =>
    if c = q then consScan [c] (scanExpr fuel depth none cs)
    else if !raw && c = '\\' then
      match cs with
      | e :: cs' => consScan [c, e] (scanExpr fuel depth (some (StrMode.single q, raw)) cs')
      | [] => none
    else consScan [c] (scanExpr fuel depth (some (StrMode.single q, raw)) cs)
  | fuel + 1, depth, some (StrMode.triple q, raw), c :: cs =>
    if c = q then
      match cs with
      | c2 :: c3 :: cs' =>
        if c2 = q && c3 = q then consScan [c, c2, c3] (scanExpr fuel depth none cs')
        else consScan [c] (scanExpr fuel depth (some (StrMode.triple q, raw)) cs)
      | _ => consScan [c] (scanExpr fuel depth (some (StrMode.triple q, raw)) cs)
    else if !raw && c = '\\' then
      match cs with
      | e :: cs' => consScan [c, e] (scanExpr fuel depth (some (StrMode.triple q, raw)) cs')
      | [] => none
    else consScan [c] (scanExpr fuel depth (some (StrMode.triple q, raw)) cs)

/-! ### Verbatim capture: supporting lemmas -/

theorem consScan_eq_some {a : List Char} {r : Option (List Char × List Char)}
    {inner rest : List Char} (h : consScan a r = some (inner, rest)) :
    ∃ inner', r = some (inner', rest) ∧ inner = a ++ inner' := by
  cases r with
  | none => simp [consScan] at h
  | some p =>
    obtain ⟨i, r'⟩ := p
    simp only [consScan, Option.some.injEq, Prod.mk.injEq] at h
    exact ⟨i, by simp [h.1.symm, h.2.symm]⟩

theorem quoteStart_append {l op : List Char} {m : StrMode} {rest : List Char}
    (h : quoteStart l = some (op, m, rest)) : l = op ++ rest := by
  match l with
  | [] => simp [quoteStart] at h
  | [q] =>
    simp only [quoteStart] at h
    split at h
    · simp only [Option.some.injEq, Prod.mk.injEq] at h
      simp [h.1.symm, h.2.2.symm]
    · exact absurd h (by simp)
  | [q, q2] =>
    simp only [quoteStart] at h
    split at h
    · simp only [Option.some.injEq, Prod.mk.injEq] at h
      simp [h.1.symm, h.2.2.symm]
    · exact absurd h (by simp)
  | q :: q2 :: q3 :: t =>
    simp only [quoteStart] at h
    split at h
    · split at h
      · rename_i hqq
        simp only [Bool.and_eq_true, decide_eq_true_eq] at hqq
        obtain ⟨hq2, hq3⟩ := hqq
        simp only [Option.some.injEq, Prod.mk.injEq] at h
        subst hq2; subst hq3
        simp [h.1.symm, h.2.2.symm]
      · simp only [Option.some.injEq, Prod.mk.injEq] at h
        simp [h.1.symm, h.2.2.symm]
    · exact absurd h (by simp)

theorem quoteStart_cons_append {c : Char} {t1 op : List Char} {m : StrMode} {rest : List Char}
    (h : quoteStart t1 = some (op, m, rest)) : c :: t1 = (c :: op) ++ rest := by
  simpa using congrArg (c :: ·) (quoteStart_append h)

theorem stringStart_append {l op : List Char} {m : StrMode} {raw : Bool} {rest : List Char}
    (h : stringStart l = some (op, m, raw, rest)) : l = op ++ rest := by
  unfold stringStart at h
  cases hq : quoteStart l with
  | some p =>
    obtain ⟨op', m', rest'⟩ := p
    rw [hq] at h
    simp only [Option.some.injEq, Prod.mk.injEq] at h
    obtain ⟨h1, _, _, h4⟩ := h
    subst h1; subst h4
    exact quoteStart_append hq
  | none =>
    rw [hq] at h
    cases l with
    | nil => exact absurd h (by simp)
    | cons c1 t1 =>
      by_cases hr1 : isRawChar c1 = true
      · simp only [hr1, if_true] at h
        cases hq1 : quoteStart t1 with
        | some p =>
          obtain ⟨op', m', rest'⟩ := p
          rw [hq1] at h
          simp only [Option.some.injEq, Prod.mk.injEq] at h
          obtain ⟨h1, _, _, h4⟩ := h
          subst h1; subst h4
          exact quoteStart_cons_append hq1
        | none =>
          rw [hq1] at h
          cases t1 with
          | nil => exact absurd h (by simp)
          | cons c2 t2 =>
            by_cases hb2 : isBytesChar c2 = true
            · simp only [hb2, if_true] at h
              cases hq2 : quoteStart t2 with
              | some p =>
                obtain ⟨op', m', rest'⟩ := p
                rw [hq2] at h
                simp only [Option.some.injEq, Prod.mk.injEq] at h
                obtain ⟨h1, _, _, h4⟩ := h
                subst h1; subst h4
                simpa using congrArg (fun u => c1 :: c2 :: u) (quoteStart_append hq2)
              | none => rw [hq2] at h; exact absurd h (by simp)
            · simp only [hb2, if_false] at h; exact absurd h (by simp)
      · simp only [hr1, if_false] at h
        by_cases hb1 : isBytesChar c1 = true
        · simp only [hb1, if_true] at h
          cases hq1 : quoteStart t1 with
          | some p =>
            obtain ⟨op', m', rest'⟩ := p
            rw [hq1] at h
            simp only [Bool.false_eq_true, if_false, Option.some.injEq, Prod.mk.injEq] at h
            obtain ⟨h1, _, _, h4⟩ := h
            subst h1; subst h4
            exact quoteStart_cons_append hq1
          | none =>
            rw [hq1] at h
            cases t1 with
            | nil => exact absurd h (by simp)
            | cons c2 t2 =>
              by_cases hr2 : isRawChar c2 = true
              · simp only [hr2, if_true] at h
                cases hq2 : quoteStart t2 with
                | some p =>
                  obtain ⟨op', m', rest'⟩ := p
                  rw [hq2] at h
                  simp only [Bool.false_eq_true, if_false, Option.some.injEq, Prod.mk.injEq] at h
                  obtain ⟨h1, _, _, h4⟩ := h
                  subst h1; subst h4
                  simpa using congrArg (fun u => c1 :: c2 :: u) (quoteStart_append hq2)
                | none => rw [hq2] at h; exact absurd h (by simp)
              · simp only [hr2, if_false] at h; exact absurd h (by simp)
        · simp only [hb1, if_false] at h; exact absurd h (by simp)

/-- Verbatim capture: whenever the balanced-parenthesis scan succeeds, the
original input is exactly the captured characters, the terminating close
parenthesis, and the unconsumed remainder.  The captured expression text is
therefore byte-for-byte the source text in front of the terminating
parenthesis, newlines and quoted substrings included. -/
theorem scanExpr_verbatim :
    ∀ (fuel depth : Nat) (st : Option (StrMode × Bool)) (s inner rest : List Char),
      scanExpr fuel depth st s = some (inner, rest) → s = inner ++ ')' :: rest := by
  intro fuel
  induction fuel with
  | zero => intro depth st s inner rest h; simp [scanExpr] at h
  | succ f ih =>
    intro depth st s inner rest h
    cases s with
    | nil => simp [scanExpr] at h
    | cons c cs =>
      cases st with
      | none =>
        simp only [scanExpr] at h
        by_cases hc : c = ')'
        · rw [if_pos hc] at h
          cases depth with
          | zero =>
            simp only [Option.some.injEq, Prod.mk.injEq] at h
            rw [← h.1, ← h.2, hc]
            simp
          | succ d =>
            obtain ⟨inner', hscan, hin⟩ := consScan_eq_some h
            have hrec := ih d none cs inner' rest hscan
            subst hin
            rw [hrec, hc]
            simp
        · rw [if_neg hc] at h
          by_cases hp : c = '('
          · rw [if_pos hp] at h
            obtain ⟨inner', hscan, hin⟩ := consScan_eq_some h
            have hrec := ih (depth + 1) none cs inner' rest hscan
            subst hin
            rw [hrec, hp]
            simp
          · rw [if_neg hp] at h
            cases hss : stringStart (c :: cs) with
            | some p =>
              obtain ⟨op, m, raw, rest'⟩ := p
              rw [hss] at h
              obtain ⟨inner', hscan, hin⟩ := consScan_eq_some h
              have hrec := ih depth (some (m, raw)) rest' inner' rest hscan
              have happ := stringStart_append hss
              subst hin
              rw [happ, hrec]
              simp
            | none =>
              rw [hss] at h
              obtain ⟨inner', hscan, hin⟩ := consScan_eq_some h
              have hrec := ih depth none cs inner' rest hscan
              subst hin
              rw [hrec]
              simp
      | some stp =>
        obtain ⟨m, raw⟩ := stp
        cases m with
        | single q =>
          simp only [scanExpr] at h
          by_cases hc : c = q
          · rw [if_pos hc] at h
            obtain ⟨inner', hscan, hin⟩ := consScan_eq_some h
            have hrec := ih depth none cs inner' rest hscan
            subst hin
            rw [hrec]
            simp
          · rw [if_neg hc] at h
            by_cases hesc : (!raw && decide (c = '\\')) = true
            · rw [if_pos hesc] at h
              cases cs with
              | nil => simp at h
              | cons e cs' =>
                obtain ⟨inner', hscan, hin⟩ := consScan_eq_some h
                have hrec := ih depth (some (StrMode.single q, raw)) cs' inner' rest hscan
                subst hin
                rw [hrec]
                simp
            · rw [if_neg hesc] at h
              obtain ⟨inner', hscan, hin⟩ := consScan_eq_some h
              have hrec := ih depth (some (StrMode.single q, raw)) cs inner' rest hscan
              subst hin
              rw [hrec]
              simp
        | triple q =>
          simp only [scanExpr] at h
          by_cases hc : c = q
          · rw [if_pos hc] at h
            cases cs with
            | nil =>
              obtain ⟨inner', hscan, hin⟩ := consScan_eq_some h
              have hrec := ih depth (some (StrMode.triple q, raw)) [] inner' rest hscan
              simp at hrec
            | cons c2 cs2 =>
              cases cs2 with
              | nil =>
                obtain ⟨inner', hscan, hin⟩ := consScan_eq_some h
                have hrec := ih depth (some (StrMode.triple q, raw)) [c2] inner' rest hscan
                subst hin
                rw [hrec]
                simp
              | cons c3 cs' =>
                have h' :
                    (if (decide (c2 = q) && decide (c3 = q)) = true then
                        consScan [c, c2, c3] (scanExpr f depth none cs')
                      else
                        consScan [c]
                          (scanExpr f depth (some (StrMode.triple q, raw)) (c2 :: c3 :: cs'))) =
                      some (inner, rest) := h
                clear h
                by_cases hqq : (decide (c2 = q) && decide (c3 = q)) = true
                · rw [if_pos hqq] at h'
                  obtain ⟨inner', hscan, hin⟩ := consScan_eq_some h'
                  have hrec := ih depth none cs' inner' rest hscan
                  subst hin
                  rw [hrec]
                  simp
                · rw [if_neg hqq] at h'
                  obtain ⟨inner', hscan, hin⟩ := consScan_eq_some h'
                  have hrec := ih depth (some (StrMode.triple q, raw)) (c2 :: c3 :: cs') inner' rest hscan
                  subst hin
                  rw [hrec]
                  simp
          · rw [if_neg hc] at h
            by_cases hesc : (!raw && decide (c = '\\')) = true
            · rw [if_pos hesc] at h
              cases cs with
              | nil => simp at h
              | cons e cs' =>
                obtain ⟨inner', hscan, hin⟩ := consScan_eq_some h
                have hrec := ih depth (some (StrMode.triple q, raw)) cs' inner' rest hscan
                subst hin
                rw [hrec]
                simp
            · rw [if_neg hesc] at h
              obtain ⟨inner', hscan, hin⟩ := consScan_eq_some h
              have hrec := ih depth (some (StrMode.triple q, raw)) cs inner' rest hscan
              subst hin
              rw [hrec]
              simp

/-! ## DDL change description (the parser's output)

Modelled from the spec's data model for the fragment of the grammar the
claims exercise: CREATE TABLE (columns, check constraints, primary key,
interleave clause, row deletion policy) and ALTER TABLE ADD COLUMN /
ADD [CONSTRAINT name] CHECK. -/

/-- Column types of the DDL dialect. -/
inductive ColType where
  | int64
  | bool
  | float64
  | string
  | bytes
  | date
  | timestamp
  | numeric
  | json
  | array (elem : ColType)
deriving DecidableEq, Repr

/-- Value of an OPTIONS entry: a boolean or an explicit NULL. -/
inductive OptionValue where
  | boolVal (b : Bool)
  | nullVal
deriving DecidableEq, Repr

/-- One `key = value` entry of an OPTIONS list. -/
structure OptionKeyVal where
  name : String
  value : OptionValue
deriving DecidableEq, Repr

/-- A parsed column definition. -/
structure ColumnDef where
  columnName : String
  colType : ColType
  maxLength : Option Nat := none
  notNull : Bool := false
  expression : Option String := none
  hasDefaultValue : Bool := false
  stored : Bool := false
  options : List OptionKeyVal := []
deriving DecidableEq, Repr

/-- A parsed check constraint. -/
structure CheckSpec where
  constraintName : Option String := none
  sqlExpression : String
deriving DecidableEq, Repr

/-- A parsed row deletion policy clause. -/
structure RowDeletionPolicyClause where
  columnName : String
  olderThanDays : Nat
deriving DecidableEq, Repr

/-- A parsed INTERLEAVE IN PARENT clause. -/
structure InterleaveClause where
  parent : String
  onDeleteCascade : Bool := false
deriving DecidableEq, Repr

/-- A parsed CREATE TABLE statement. -/
structure CreateTableStmt where
  tableName : String
  columns : List ColumnDef := []
  checkConstraints : List CheckSpec := []
  primaryKey : List String := []
  interleave : Option InterleaveClause := none
  rowDeletionPolicy : Option RowDeletionPolicyClause := none
deriving DecidableEq, Repr

/-- The ALTER TABLE actions the claims exercise. -/
inductive AlterTableAction where
  | addColumn (col : ColumnDef)
  | addCheck (ck : CheckSpec)
deriving DecidableEq, Repr

/-- A parsed ALTER TABLE statement. -/
structure AlterTableStmt where
  tableName : String
  action : AlterTableAction
deriving DecidableEq, Repr

/-- A parsed DDL statement (the fragment the claims exercise). -/
inductive DDLStatement where
  | createTable (t : CreateTableStmt)
  | alterTable (a : AlterTableStmt)
deriving DecidableEq, Repr

/-- Feature gates recognized at parse time (common/feature_flags.h). -/
structure Flags where
  enableStoredGeneratedColumns : Bool := false
  enableColumnDefaultValues : Bool := false
  enableCheckConstraint : Bool := false
deriving DecidableEq, Repr

/-! ## Lexing helpers -/

/-- Whitespace characters skipped between tokens. -/
def isSpaceChar (c : Char) : Bool := c = ' ' || c = '\n' || c = '\t' || c = '\r'

/-- Skips leading whitespace. -/
def skipWs : List Char → List Char
  | [] => []
  | c :: cs => if isSpaceChar c then skipWs cs else c :: cs

/-- First character of an unquoted identifier. -/
def isIdentStartChar (c : Char) : Bool := c.isAlpha || c = '_'

/-- Subsequent characters of an unquoted identifier. -/
def isIdentChar (c : Char) : Bool := c.isAlpha || c.isDigit || c = '_'

/-- The backquote character that quotes identifiers. -/
def backquoteChar : Char := Char.ofNat 96

/-- Generic syntax error, carrying InvalidArgument as all plain parse errors do. -/
def syntaxErr (m : String) : ErrorStatus := ⟨StatusCode.invalidArgument, "Syntax error: " ++ m⟩

/-- Uppercases a name for case-insensitive keyword recognition. -/
def upcase (s : String) : String := (s.toList.map Char.toUpper).asString

/-- Lexes one identifier token: either backquote-quoted (may contain arbitrary
non-backquote characters) or unquoted (letters, digits, underscore, starting
with a letter or underscore).  Returns the name, whether it was quoted, and
the remaining input. -/
def lexRawIdent (l : List Char) : Except ErrorStatus (String × Bool × List Char) :=
  match skipWs l with
  | [] => Except.error (syntaxErr "expecting identifier but found EOF")
  | c :: t =>
    if c = backquoteChar then
      let name := t.takeWhile (fun d => d ≠ backquoteChar)
      match t.dropWhile (fun d => d ≠ backquoteChar) with
      | d :: rest =>
        if d = backquoteChar && !name.isEmpty then Except.ok (name.asString, true, rest)
        else Except.error (syntaxErr "invalid quoted identifier")
      | [] => Except.error (syntaxErr "unterminated quoted identifier")
    else if isIdentStartChar c then
      Except.ok ((c :: t.takeWhile isIdentChar).asString, false, t.dropWhile isIdentChar)
    else Except.error (syntaxErr ("expecting identifier but found " ++ String.mk [c]))

/-- Tests whether the next token is the given keyword, written unquoted in any
character case.  A backquote-quoted identifier never matches a keyword. -/
def peekKeyword (kw : String) (l : List Char) : Bool :=
  match lexRawIdent l with
  | Except.ok (name, quoted, _) => !quoted && upcase name = kw
  | Except.error _ => false

/-- Consumes the given keyword (case-insensitive, unquoted) or fails. -/
def expectKeyword (kw : String) (l : List Char) : Except ErrorStatus (List Char) :=
  match lexRawIdent l with
  | Except.ok (name, quoted, rest) =>
    if !quoted && upcase name = kw then Except.ok rest
    else Except.error (syntaxErr ("Expecting " ++ kw ++ " but found " ++ name))
  | Except.error _ => Except.error (syntaxErr ("Expecting " ++ kw))

/-- Tests whether the next non-whitespace character is `c`. -/
def peekChar (c : Char) (l : List Char) : Bool :=
  match skipWs l with
  | c' :: _ => c' = c
  | [] => false

/-- Consumes the expected punctuation character or fails. -/
def expectChar (c : Char) (l : List Char) : Except ErrorStatus (List Char) :=
  match skipWs l with
  | c' :: rest =>
    if c' = c then Except.ok rest
    else Except.error (syntaxErr ("Expecting " ++ String.mk [c] ++ " but found " ++ String.mk [c']))
  | [] => Except.error (syntaxErr ("Expecting " ++ String.mk [c] ++ " but found EOF"))

/-- Hexadecimal digit test. -/
def isHexDigitChar (c : Char) : Bool :=
  c.isDigit || ('a' ≤ c && c ≤ 'f') || ('A' ≤ c && c ≤ 'F')

/-- Numeric value of a hexadecimal digit. -/
def hexDigitVal (c : Char) : Nat :=
  if c.isDigit then c.toNat - 48 else (c.toLower.toNat - 97) + 10

/-- Lexes a decimal integer literal. -/
def lexDecInt (l : List Char) : Except ErrorStatus (Nat × List Char) :=
  let ds := l.takeWhile Char.isDigit
  if ds.isEmpty then Except.error (syntaxErr "expecting integer literal")
  else Except.ok (ds.foldl (fun a c => a * 10 + (c.toNat - 48)) 0, l.dropWhile Char.isDigit)

/-- Lexes an integer literal, decimal or 0x-prefixed hexadecimal; the parsed
value is its numeric value. -/
def lexIntLit (l : List Char) : Except ErrorStatus (Nat × List Char) :=
  match skipWs l with
  | c0 :: c1 :: t =>
    if c0 = '0' && (c1 = 'x' || c1 = 'X') then
      let ds := t.takeWhile isHexDigitChar
      if ds.isEmpty then Except.error (syntaxErr "expecting hex digits")
      else Except.ok (ds.foldl (fun a c => a * 16 + hexDigitVal c) 0, t.dropWhile isHexDigitChar)
    else lexDecInt (c0 :: c1 :: t)
  | l' => lexDecInt l'

/-! ## DDL parser

Modelled from the spec: recursive-descent over the grammar of §4.B for the
constructs the claims exercise.  Expression bodies are delimited by the
balanced-parenthesis scan, which is the sole authority for where an
expression ends.  Feature gates are applied to the parsed statement; all
plain parse errors carry InvalidArgument. -/

/-- Parses a STRING/BYTES length token: MAX or an integer literal (decimal or
hexadecimal).  MAX yields an unbounded length (`none`). -/
def parseLengthTok (l : List Char) : Except ErrorStatus (Option Nat × List Char) :=
  if peekKeyword "MAX" l then do
    let rest ← expectKeyword "MAX" l
    Except.ok (none, rest)
  else do
    let (n, rest) ← lexIntLit l
    Except.ok (some n, rest)

/-- Rejects a parenthesized length after a type that admits none. -/
def noLengthType (t : ColType) (rest : List Char) :
    Except ErrorStatus (ColType × Option Nat × List Char) :=
  if peekChar '(' rest then
    Except.error (syntaxErr "length is not allowed for this type")
  else Except.ok (t, none, rest)

/-- Parses a column type, with its length for STRING and BYTES. -/
def parseColType : Nat → List Char → Except ErrorStatus (ColType × Option Nat × List Char)
  | 0, _ => Except.error (syntaxErr "recursion limit")
  | fuel + 1, l => do
    let (name, quoted, rest) ← lexRawIdent l
    if quoted then Except.error (syntaxErr "Encountered quoted identifier while parsing: column_type")
    else
      match upcase name with
      | "INT64" => noLengthType ColType.int64 rest
      | "BOOL" => noLengthType ColType.bool rest
      | "FLOAT64" => noLengthType ColType.float64 rest
      | "DATE" => noLengthType ColType.date rest
      | "TIMESTAMP" => noLengthType ColType.timestamp rest
      | "NUMERIC" => noLengthType ColType.numeric rest
      | "JSON" => noLengthType ColType.json rest
      | "STRING" => do
        let rest ← expectChar '(' rest
        let (len, rest) ← parseLengthTok rest
        let rest ← expectChar ')' rest
        Except.ok (ColType.string, len, rest)
      | "BYTES" => do
        let rest ← expectChar '(' rest
        let (len, rest) ← parseLengthTok rest
        let rest ← expectChar ')' rest
        Except.ok (ColType.bytes, len, rest)
      | "ARRAY" => do
        let rest ← expectChar '<' rest
        let (elemT, _, rest) ← parseColType fuel rest
        let rest ← expectChar '>' rest
        Except.ok (ColType.array elemT, none, rest)
      | _ =>
        Except.error (syntaxErr ("Encountered " ++ name ++ " while parsing: column_type"))

/-- Parses the entries of an OPTIONS list after its opening parenthesis.
Entries are `key = (true|false|null)`; only the recognized key
allow_commit_timestamp is admitted; every entry is appended in written order;
a trailing comma is a syntax error. -/
def parseOptionsLoop :
    Nat → List Char → List OptionKeyVal → Except ErrorStatus (List OptionKeyVal × List Char)
  | 0, _, _ => Except.error (syntaxErr "recursion limit")
  | fuel + 1, l, acc => do
    let (key, kq, rest) ← lexRawIdent l
    if kq then Except.error (syntaxErr "Encountered quoted identifier while parsing: option_key_val")
    else if key ≠ "allow_commit_timestamp" then
      Except.error ⟨StatusCode.invalidArgument, "Option: " ++ key ++ " is unknown."⟩
    else do
      let rest ← expectChar '=' rest
      let (vname, vq, rest) ← lexRawIdent rest
      if vq then Except.error (syntaxErr "Encountered quoted identifier while parsing: option_key_val")
      else do
        let v ←
          match upcase vname with
          | "TRUE" => Except.ok (OptionValue.boolVal true)
          | "FALSE" => Except.ok (OptionValue.boolVal false)
          | "NULL" => Except.ok OptionValue.nullVal
          | _ =>
            Except.error
              (syntaxErr ("Encountered " ++ vname ++ " while parsing: option_key_val"))
        let acc := acc ++ [OptionKeyVal.mk key v]
        if peekChar ',' rest then do
          let rest ← expectChar ',' rest
          parseOptionsLoop fuel rest acc
        else do
          let rest ← expectChar ')' rest
          Except.ok (acc, rest)

/-- Parses an optional NOT NULL clause. -/
def parseNotNull (l : List Char) : Except ErrorStatus (Bool × List Char) :=
  if peekKeyword "NOT" l then do
    let rest ← expectKeyword "NOT" l
    let rest ← expectKeyword "NULL" rest
    Except.ok (true, rest)
  else Except.ok (false, l)

/-- Parses a parenthesized expression body with the balanced-parenthesis scan,
returning the characters strictly between the outer parentheses. -/
def parseParenExpr (l : List Char) : Except ErrorStatus (String × List Char) := do
  let rest ← expectChar '(' l
  match scanExpr (rest.length + 1) 0 none rest with
  | some (inner, rest') => Except.ok (inner.asString, rest')
  | none => Except.error (syntaxErr "Expecting ')' but found 'EOF'")

/-- Parses an optional `AS (expr) [STORED]` or `DEFAULT (expr)` clause.
The recorded expression text is the body together with its enclosing
parentheses.  Returns (expression, has-default flag, stored flag). -/
def parseGenOrDefault (l : List Char) :
    Except ErrorStatus ((Option String × Bool × Bool) × List Char) :=
  if peekKeyword "AS" l then do
    let rest ← expectKeyword "AS" l
    let (e, rest) ← parseParenExpr rest
    if peekKeyword "STORED" rest then do
      let rest ← expectKeyword "STORED" rest
      Except.ok ((some ("(" ++ e ++ ")"), false, true), rest)
    else Except.ok ((some ("(" ++ e ++ ")"), false, false), rest)
  else if peekKeyword "DEFAULT" l then do
    let rest ← expectKeyword "DEFAULT" l
    let (e, rest) ← parseParenExpr rest
    Except.ok ((some ("(" ++ e ++ ")"), true, false), rest)
  else Except.ok ((none, false, false), l)

/-- Parses an optional OPTIONS clause. -/
def parseOptionsClause (fuel : Nat) (l : List Char) :
    Except ErrorStatus (List OptionKeyVal × List Char) :=
  if peekKeyword "OPTIONS" l then do
    let rest ← expectKeyword "OPTIONS" l
    let rest ← expectChar '(' rest
    parseOptionsLoop fuel rest []
  else Except.ok ([], l)

/-- Parses one column definition. -/
def parseColumnDef (fuel : Nat) (l : List Char) : Except ErrorStatus (ColumnDef × List Char) := do
  let (name, _, rest) ← lexRawIdent l
  let (ct, len, rest) ← parseColType fuel rest
  let (nn, rest) ← parseNotNull rest
  let ((expr, hasDef, sto), rest) ← parseGenOrDefault rest
  let (opts, rest) ← parseOptionsClause fuel rest
  Except.ok (ColumnDef.mk name ct len nn expr hasDef sto opts, rest)

/-- Parses `CHECK ( expr )`, capturing the expression body verbatim. -/
def parseCheckBody (cname : Option String) (l : List Char) :
    Except ErrorStatus (CheckSpec × List Char) := do
  let rest ← expectKeyword "CHECK" l
  let (e, rest) ← parseParenExpr rest
  Except.ok (CheckSpec.mk cname e, rest)

/-- Parses the comma-separated columns and table constraints of a CREATE
TABLE body up to and including the closing parenthesis.  A trailing comma is
tolerated. -/
def parseTableItems :
    Nat → List Char → List ColumnDef → List CheckSpec →
      Except ErrorStatus (List ColumnDef × List CheckSpec × List Char)
  | 0, _, _, _ => Except.error (syntaxErr "recursion limit")
  | fuel + 1, l, cols, checks =>
    if peekChar ')' l then do
      let rest ← expectChar ')' l
      Except.ok (cols, checks, rest)
    else do
      let (cols, checks, rest) ←
        if peekKeyword "CHECK" l then do
          let (ck, rest) ← parseCheckBody none l
          Except.ok (cols, checks ++ [ck], rest)
        else if peekKeyword "CONSTRAINT" l then do
          let rest ← expectKeyword "CONSTRAINT" l
          let (cname, _, rest) ← lexRawIdent rest
          let (ck, rest) ← parseCheckBody (some cname) rest
          Except.ok (cols, checks ++ [ck], rest)
        else do
          let (col, rest) ← parseColumnDef fuel l
          Except.ok (cols ++ [col], checks, rest)
      if peekChar ',' rest then do
        let rest ← expectChar ',' rest
        parseTableItems fuel rest cols checks
      else do
        let rest ← expectChar ')' rest
        Except.ok (cols, checks, rest)

/-- Parses the comma-separated primary key columns up to and including the
closing parenthesis; the list may be empty. -/
def parsePrimaryKeyCols :
    Nat → List Char → List String → Except ErrorStatus (List String × List Char)
  | 0, _, _ => Except.error (syntaxErr "recursion limit")
  | fuel + 1, l, acc =>
    if peekChar ')' l then do
      let rest ← expectChar ')' l
      Except.ok (acc, rest)
    else do
      let (name, _, rest) ← lexRawIdent l
      let acc := acc ++ [name]
      if peekChar ',' rest then do
        let rest ← expectChar ',' rest
        parsePrimaryKeyCols fuel rest acc
      else do
        let rest ← expectChar ')' rest
        Except.ok (acc, rest)

/-- Parses a `( OLDER_THAN ( column , INTERVAL n DAY ) )` row deletion policy
body.  The predicate name is matched case-insensitively; any other name is
rejected with exactly the message the service uses. -/
def parseRowDeletionPolicyBody (l : List Char) :
    Except ErrorStatus (RowDeletionPolicyClause × List Char) := do
  let rest ← expectChar '(' l
  let (pred, _, rest) ← lexRawIdent rest
  if upcase pred = "OLDER_THAN" then do
    let rest ← expectChar '(' rest
    let (col, _, rest) ← lexRawIdent rest
    let rest ← expectChar ',' rest
    let rest ← expectKeyword "INTERVAL" rest
    let (n, rest) ← lexIntLit rest
    let rest ← expectKeyword "DAY" rest
    let rest ← expectChar ')' rest
    let rest ← expectChar ')' rest
    Except.ok (RowDeletionPolicyClause.mk col n, rest)
  else Except.error ⟨StatusCode.invalidArgument, "Only OLDER_THAN is supported."⟩

/-- Parses the optional comma-led clauses after PRIMARY KEY: INTERLEAVE IN
PARENT and ROW DELETION POLICY. -/
def parseTableSuffix :
    Nat → List Char → Option InterleaveClause → Option RowDeletionPolicyClause →
      Except ErrorStatus (Option InterleaveClause × Option RowDeletionPolicyClause × List Char)
  | 0, _, _, _ => Except.error (syntaxErr "recursion limit")
  | fuel + 1, l, il, rdp =>
    if peekChar ',' l then do
      let rest ← expectChar ',' l
      if peekKeyword "INTERLEAVE" rest then do
        let rest ← expectKeyword "INTERLEAVE" rest
        let rest ← expectKeyword "IN" rest
        let rest ← expectKeyword "PARENT" rest
        let (p, _, rest) ← lexRawIdent rest
        if peekKeyword "ON" rest then do
          let rest ← expectKeyword "ON" rest
          let rest ← expectKeyword "DELETE" rest
          if peekKeyword "CASCADE" rest then do
            let rest ← expectKeyword "CASCADE" rest
            parseTableSuffix fuel rest (some (InterleaveClause.mk p true)) rdp
          else do
            let rest ← expectKeyword "NO" rest
            let rest ← expectKeyword "ACTION" rest
            parseTableSuffix fuel rest (some (InterleaveClause.mk p false)) rdp
        else parseTableSuffix fuel rest (some (InterleaveClause.mk p false)) rdp
      else if peekKeyword "ROW" rest then do
        let rest ← expectKeyword "ROW" rest
        let rest ← expectKeyword "DELETION" rest
        let rest ← expectKeyword "POLICY" rest
        let (pol, rest) ← parseRowDeletionPolicyBody rest
        parseTableSuffix fuel rest il (some pol)
      else Except.error (syntaxErr "unexpected clause after PRIMARY KEY")
    else Except.ok (il, rdp, l)

/-- Fails unless only whitespace remains. -/
def expectEOF (l : List Char) : Except ErrorStatus Unit :=
  match skipWs l with
  | [] => Except.ok ()
  | c :: _ => Except.error (syntaxErr ("Expecting EOF but found " ++ String.mk [c]))

/-- Parses a CREATE TABLE statement after its CREATE TABLE keywords. -/
def parseCreateTable (fuel : Nat) (l : List Char) : Except ErrorStatus CreateTableStmt := do
  let (tname, _, rest) ← lexRawIdent l
  let rest ← expectChar '(' rest
  let (cols, checks, rest) ← parseTableItems fuel rest [] []
  let rest ← expectKeyword "PRIMARY" rest
  let rest ← expectKeyword "KEY" rest
  let rest ← expectChar '(' rest
  let (pk, rest) ← parsePrimaryKeyCols fuel rest []
  let (il, rdp, rest) ← parseTableSuffix fuel rest none none
  let _ ← expectEOF rest
  Except.ok (CreateTableStmt.mk tname cols checks pk il rdp)

/-- Parses an ALTER TABLE statement after its ALTER keyword.  COLUMN is a
contextual keyword here: the token after ADD must be the unquoted word
COLUMN (in any character case) for a column addition, while the added
column's own name may be any identifier, including quoted or unquoted
COLUMN. -/
def parseAlterTable (fuel : Nat) (l : List Char) : Except ErrorStatus AlterTableStmt := do
  let rest ← expectKeyword "TABLE" l
  let (tname, _, rest) ← lexRawIdent rest
  if peekKeyword "ADD" rest then do
    let rest ← expectKeyword "ADD" rest
    if peekKeyword "COLUMN" rest then do
      let rest ← expectKeyword "COLUMN" rest
      let (col, rest) ← parseColumnDef fuel rest
      let _ ← expectEOF rest
      Except.ok (AlterTableStmt.mk tname (AlterTableAction.addColumn col))
    else if peekKeyword "CHECK" rest then do
      let (ck, rest) ← parseCheckBody none rest
      let _ ← expectEOF rest
      Except.ok (AlterTableStmt.mk tname (AlterTableAction.addCheck ck))
    else if peekKeyword "CONSTRAINT" rest then do
      let rest ← expectKeyword "CONSTRAINT" rest
      let (cname, _, rest) ← lexRawIdent rest
      let (ck, rest) ← parseCheckBody (some cname) rest
      let _ ← expectEOF rest
      Except.ok (AlterTableStmt.mk tname (AlterTableAction.addCheck ck))
    else Except.error (syntaxErr "unsupported ALTER TABLE ADD action")
  else Except.error (syntaxErr "unsupported ALTER TABLE action")

/-- Feature-gate check for one parsed column: a generated column without
STORED is always unimplemented; a stored generated column and a default
expression are unimplemented while their gates are disabled. -/
def columnGateError (flags : Flags) (c : ColumnDef) : Option ErrorStatus :=
  if c.expression.isSome && !c.hasDefaultValue && !c.stored then
    some ⟨StatusCode.unimplemented,
      "Generated column `" ++ c.columnName ++ "` without the STORED attribute is not supported."⟩
  else if c.stored && !flags.enableStoredGeneratedColumns then
    some ⟨StatusCode.unimplemented, "Generated columns are not enabled."⟩
  else if c.hasDefaultValue && !flags.enableColumnDefaultValues then
    some ⟨StatusCode.unimplemented, "Column DEFAULT values are not enabled."⟩
  else none

/-- Feature-gate check for a parsed statement, applied after a grammatically
successful parse; the first violation (columns in written order, then check
constraints) determines the error. -/
def statementGateError (flags : Flags) : DDLStatement → Option ErrorStatus
  | DDLStatement.createTable t =>
    match t.columns.findSome? (columnGateError flags) with
    | some e => some e
    | none =>
      if !t.checkConstraints.isEmpty && !flags.enableCheckConstraint then
        some ⟨StatusCode.unimplemented, "Check Constraint is not implemented."⟩
      else none
  | DDLStatement.alterTable a =>
    match a.action with
    | AlterTableAction.addColumn c => columnGateError flags c
    | AlterTableAction.addCheck _ =>
      if !flags.enableCheckConstraint then
        some ⟨StatusCode.unimplemented, "Check Constraint is not implemented."⟩
      else none

/-- Modelled from the spec: ParseDDLStatement for the CREATE TABLE and ALTER
TABLE fragment of the grammar, under the given feature gates.  The parser
implementation is absent from the provided sources; this model follows §4.B
of the specification and is checked against the expected outputs in the
parser test file. -/
def parseDDLStatement (flags : Flags) (input : String) : Except ErrorStatus DDLStatement := do
  let l := skipWs input.toList
  let fuel := input.toList.length + 1
  let stmt ←
    if peekKeyword "CREATE" l then do
      let rest ← expectKeyword "CREATE" l
      let rest ← expectKeyword "TABLE" rest
      DDLStatement.createTable <$> parseCreateTable fuel rest
    else if peekKeyword "ALTER" l then do
      let rest ← expectKeyword "ALTER" l
      DDLStatement.alterTable <$> parseAlterTable fuel rest
    else Except.error (syntaxErr "unsupported statement")
  match statementGateError flags stmt with
  | some e => Except.error e
  | none => Except.ok stmt

/-! ## UpdateDatabaseDdl handler (frontend/handlers/databases.cc)

The handler collects the submitted statements, invokes the backend schema
update, and builds the returned long-running operation.  The backend
UpdateSchema is absent from the provided sources; it is modelled from the
spec: statements are applied strictly in order, the first failure stops the
update with the preceding statements committed at one shared commit
timestamp, and the failing statement's error becomes the backfill status. -/

/-- Metadata of an UpdateDatabaseDdl operation. -/
structure UpdateDatabaseDdlMetadata where
  database : String
  statements : List String
  commitTimestamps : List Nat
deriving DecidableEq, Repr

/-- Terminal result of an operation: an empty success payload or an error. -/
inductive OperationResult where
  | completed
  | failed (e : ErrorStatus)
deriving DecidableEq, Repr

/-- The operation returned by UpdateDatabaseDdl. -/
structure UpdateDdlOperation where
  metadata : UpdateDatabaseDdlMetadata
  result : OperationResult
deriving DecidableEq, Repr

/-- Modelled from the spec: the backend UpdateSchema loop.  Applies the
statements in submitted order, threading the schema; on the first failing
statement it stops and records that statement's error.  Returns the schema
after the successful prefix, the number of successful statements, and the
error of the first failing statement when one exists. -/
def applyStatements (step : σ → String → Except ErrorStatus σ) :
    σ → List String → σ × Nat × Option ErrorStatus
  | s, [] => (s, 0, none)
  | s, stmt :: rest =>
    match step s stmt with
    | Except.ok s' =>
      let r := applyStatements step s' rest
      (r.1, r.2.1 + 1, r.2.2)
    | Except.error err => (s, 0, some err)

/-- Number of successfully applied statements. -/
def numSuccessfulStatements (step : σ → String → Except ErrorStatus σ)
    (s : σ) (stmts : List String) : Nat :=
  (applyStatements step s stmts).2.1

/-- Embeds UpdateDatabaseDdl from frontend/handlers/databases.cc: the
metadata lists every submitted statement and one copy of the shared commit
timestamp per successful statement; the operation's terminal result is an
empty success payload when the backfill status is ok and that error
otherwise. -/
def updateDatabaseDdl (step : σ → String → Except ErrorStatus σ) (schema : σ)
    (databaseUri : String) (statements : List String) (commitTs : Nat) :
    UpdateDdlOperation :=
  let r := applyStatements step schema statements
  { metadata :=
      { database := databaseUri
        statements := statements
        commitTimestamps := List.replicate r.2.1 commitTs }
    result :=
      match r.2.2 with
      | none => OperationResult.completed
      | some e => OperationResult.failed e }

/-! ## ListDatabases handler (frontend/handlers/databases.cc) -/

/-- Page size normalization from ListDatabases: a requested page size that is
zero, negative, or greater than the 1000 maximum is treated as 1000. -/
def effectivePageSize (requested : Int) : Nat :=
  if requested ≤ 0 || requested > 1000 then 1000 else requested.toNat

/-- Lexicographic character-wise comparison of URIs; on the UTF-8 encoded
URIs the handlers compare, this coincides with the byte-wise std::string
comparison the C++ code performs. -/
def uriLe : List Char → List Char → Bool
  | [], _ => true
  | _ :: _, [] => false
  | a :: as, b :: bs => if a = b then uriLe as bs else decide (a < b)

/-- Lexicographic string comparison used for page tokens and URI ordering. -/
def stringLe (s t : String) : Bool := uriLe s.data t.data

/-- Embeds the response-building loop of ListDatabases.  Databases arrive
from the database manager sorted by URI.  For each database: when the
response already holds page-size entries, the current URI becomes the next
page token and iteration stops; otherwise the database is added exactly when
its URI is lexicographically at or after the page token.  `count` is the
number of databases added so far. -/
def listDatabasesLoop (pageSize : Nat) (pageToken : String) :
    List String → Nat → List String × Option String
  | [], _ => ([], none)
  | uri :: rest, count =>
    if pageSize ≤ count then ([], some uri)
    else if stringLe pageToken uri then
      let r := listDatabasesLoop pageSize pageToken rest (count + 1)
      (uri :: r.1, r.2)
    else listDatabasesLoop pageSize pageToken rest count

/-- Embeds ListDatabases: normalizes the page size and runs the loop over the
manager's URI-sorted database list.  Returns the response databases and the
optional next page token. -/
def listDatabases (requestedPageSize : Int) (pageToken : String)
    (dbs : List String) : List String × Option String :=
  listDatabasesLoop (effectivePageSize requestedPageSize) pageToken dbs 0

/-! ## Operation tracker (frontend/collections/operation_manager.h)

The header declares the interface, the counter starting at 0, and the URI-map;
the method bodies are absent from the provided sources and are modelled from
the spec (§4.F): the auto sentinel yields a fresh id `_auto<N>` from the
monotonically increasing counter; a user id is validated against the
identifier grammar with the `_auto` prefix reserved; a duplicate URI is
rejected as already-exists. -/

/-- The constant indicating that the operation id should be auto generated;
system generated ids always start with "_auto". -/
def kAutoGeneratedId : String := "_auto"

/-- Modelled from the spec: operation ids must match the unquoted-identifier
grammar; the `_auto` prefix is reserved for system-generated ids. -/
def isValidOperationId (id : String) : Bool :=
  (match id.toList with
   | [] => false
   | c :: t => isIdentStartChar c && t.all isIdentChar) &&
    !id.startsWith kAutoGeneratedId

/-- Operation URIs: `<resource_uri>/operations/<operation_id>`. -/
def makeOperationUri (resourceUri operationId : String) : String :=
  resourceUri ++ "/operations/" ++ operationId

/-- State of the operation manager: the counter for system-assigned ids
(initially 0) and the set of registered operation URIs. -/
structure OperationManager where
  nextOperationId : Nat := 0
  operationsMap : List String := []
deriving DecidableEq, Repr

/-- Modelled from the spec: CreateOperation.  Returns the id of the created
operation (from which its URI is formed) or an error, together with the
updated manager state. -/
def createOperation (m : OperationManager) (resourceUri operationId : String) :
    Except ErrorStatus String × OperationManager :=
  if operationId = "" || operationId = kAutoGeneratedId then
    let id := kAutoGeneratedId ++ toString m.nextOperationId
    let uri := makeOperationUri resourceUri id
    if m.operationsMap.contains uri then
      (Except.error ⟨StatusCode.alreadyExists, "Operation already exists: " ++ uri⟩,
        { m with nextOperationId := m.nextOperationId + 1 })
    else
      (Except.ok id,
        ⟨m.nextOperationId + 1, m.operationsMap ++ [uri]⟩)
  else if !isValidOperationId operationId then
    (Except.error ⟨StatusCode.invalidArgument, "Invalid operation id: " ++ operationId⟩, m)
  else
    let uri := makeOperationUri resourceUri operationId
    if m.operationsMap.contains uri then
      (Except.error ⟨StatusCode.alreadyExists, "Operation already exists: " ++ uri⟩, m)
    else (Except.ok operationId, ⟨m.nextOperationId, m.operationsMap ++ [uri]⟩)

/-! ## Foreign key schema node (backend/schema/catalog/foreign_key.h) -/

/-- Foreign key schema node: the two name fields (constraint name, empty when
unnamed; generated name, empty when named) and the plain reference
attributes copied by the shallow clone. -/
structure ForeignKey where
  constraintName : String
  generatedName : String
  referencingTable : String
  referencingColumns : List String
  referencedTable : String
  referencedColumns : List String
deriving DecidableEq, Repr

/-- ForeignKey::Name — the exposed name: the generated name when the
constraint name is empty, the constraint name otherwise. -/
def ForeignKey.Name (fk : ForeignKey) : String :=
  if fk.constraintName = "" then fk.generatedName else fk.constraintName

/-- ForeignKey::ShallowClone — the defaulted copy constructor duplicates
every plain attribute. -/
def ForeignKey.shallowClone (fk : ForeignKey) : ForeignKey :=
  { constraintName := fk.constraintName
    generatedName := fk.generatedName
    referencingTable := fk.referencingTable
    referencingColumns := fk.referencingColumns
    referencedTable := fk.referencedTable
    referencedColumns := fk.referencedColumns }

/-! ## Claim theorems -/

/-- Sequential application helper facts: the count of successful statements
never exceeds the submitted count; it equals the submitted count exactly when
no error was recorded; re-running the successful prefix reproduces the final
schema with no error; and when a statement failed, the recorded error is the
error the step function yields at the first failing position. -/
theorem applyStatements_spec {σ : Type} (step : σ → String → Except ErrorStatus σ) :
    ∀ (stmts : List String) (s : σ),
      (applyStatements step s stmts).2.1 ≤ stmts.length ∧
      ((applyStatements step s stmts).2.2 = none ↔
        (applyStatements step s stmts).2.1 = stmts.length) ∧
      applyStatements step s (stmts.take (applyStatements step s stmts).2.1) =
        ((applyStatements step s stmts).1, (applyStatements step s stmts).2.1, none) ∧
      (∀ hn : (applyStatements step s stmts).2.1 < stmts.length,
        ∃ e, step (applyStatements step s stmts).1 (stmts.get ⟨_, hn⟩) = Except.error e ∧
          (applyStatements step s stmts).2.2 = some e) := by
  intro stmts
  induction stmts with
  | nil =>
    intro s
    refine ⟨le_refl _, by simp [applyStatements], by simp [applyStatements], ?_⟩
    intro hn
    simp [applyStatements] at hn
  | cons stmt rest ih =>
    intro s
    cases hstep : step s stmt with
    | error err =>
      refine ⟨?_, ?_, ?_, ?_⟩
      · simp [applyStatements, hstep]
      · simp [applyStatements, hstep]
      · simp [applyStatements, hstep]
      · intro hn
        refine ⟨err, ?_, ?_⟩
        · simp [applyStatements, hstep]
        · simp [applyStatements, hstep]
    | ok s' =>
      obtain ⟨ih1, ih2, ih3, ih4⟩ := ih s'
      refine ⟨?_, ?_, ?_, ?_⟩
      · simp only [applyStatements, hstep, List.length_cons]
        omega
      · simp only [applyStatements, hstep, List.length_cons]
        constructor
        · intro he
          have := ih2.mp he
          omega
        · intro he
          exact ih2.mpr (by omega)
      · simp only [applyStatements, hstep, List.take_succ_cons]
        rw [ih3]
      · intro hn
        simp only [applyStatements, hstep, List.length_cons] at hn ⊢
        have hn' : (applyStatements step s' rest).2.1 < rest.length := by omega
        obtain ⟨e, he1, he2⟩ := ih4 hn'
        exact ⟨e, he1, he2⟩

/-- C2.  For every UpdateDatabaseDdl request, the returned operation's
metadata names the database, lists every submitted statement, and carries
exactly one commit timestamp per successful statement, all equal to the
single shared commit timestamp; the first N statements indeed apply without
error; and the operation's terminal result is the empty success payload when
every statement succeeded and otherwise the error status that the first
failing statement produced. -/
theorem C2_update_database_ddl_spec {σ : Type} (step : σ → String → Except ErrorStatus σ)
    (schema : σ) (uri : String) (stmts : List String) (ts : Nat) :
    (updateDatabaseDdl step schema uri stmts ts).metadata.database = uri ∧
    (updateDatabaseDdl step schema uri stmts ts).metadata.statements = stmts ∧
    (updateDatabaseDdl step schema uri stmts ts).metadata.commitTimestamps =
      List.replicate (numSuccessfulStatements step schema stmts) ts ∧
    numSuccessfulStatements step schema stmts ≤ stmts.length ∧
    (applyStatements step schema (stmts.take (numSuccessfulStatements step schema stmts))).2.2 =
      none ∧
    (numSuccessfulStatements step schema stmts = stmts.length →
      (updateDatabaseDdl step schema uri stmts ts).result = OperationResult.completed) ∧
    (∀ hn : numSuccessfulStatements step schema stmts < stmts.length,
      ∃ e, step (applyStatements step schema stmts).1 (stmts.get ⟨_, hn⟩) = Except.error e ∧
        (updateDatabaseDdl step schema uri stmts ts).result = OperationResult.failed e) := by
  obtain ⟨h1, h2, h3, h4⟩ := applyStatements_spec step stmts schema
  refine ⟨rfl, rfl, rfl, h1, ?_, ?_, ?_⟩
  · rw [numSuccessfulStatements, h3]
  · intro hlen
    have hnone : (applyStatements step schema stmts).2.2 = none := h2.mpr hlen
    simp only [updateDatabaseDdl, hnone]
  · intro hn
    obtain ⟨e, he1, he2⟩ := h4 hn
    refine ⟨e, he1, ?_⟩
    simp only [updateDatabaseDdl, he2]

/-- Example step function used to witness C2 at concrete inputs. -/
def stepEx : Nat → String → Except ErrorStatus Nat := fun n st =>
  if st = "bad" then Except.error ⟨StatusCode.failedPrecondition, "bad statement"⟩
  else Except.ok (n + 1)

/-- Witness for C2: at a concrete two-statement request in which both
statements succeed, the hypotheses are discharged and the operation completes
with two copies of the shared commit timestamp. -/
theorem C2_witness :
    (updateDatabaseDdl stepEx 0 "projects/p/instances/i/databases/d" ["a", "c"] 7).result =
      OperationResult.completed ∧
    (updateDatabaseDdl stepEx 0 "projects/p/instances/i/databases/d" ["a", "c"] 7).metadata.commitTimestamps =
      List.replicate 2 7 := by
  have h := C2_update_database_ddl_spec stepEx 0 "projects/p/instances/i/databases/d" ["a", "c"] 7
  refine ⟨h.2.2.2.2.2.1 (by decide), ?_⟩
  rw [h.2.2.1]
  rfl

/-- First tracker call of the claimed sequence: auto id on a fresh manager. -/
def trackerStep1 : Except ErrorStatus String × OperationManager :=
  createOperation {} "r" kAutoGeneratedId

/-- Second tracker call: auto id again. -/
def trackerStep2 : Except ErrorStatus String × OperationManager :=
  createOperation trackerStep1.2 "r" kAutoGeneratedId

/-- Third tracker call: the user id foo. -/
def trackerStep3 : Except ErrorStatus String × OperationManager :=
  createOperation trackerStep2.2 "r" "foo"

/-- Fourth tracker call: the user id foo again. -/
def trackerStep4 : Except ErrorStatus String × OperationManager :=
  createOperation trackerStep3.2 "r" "foo"

/-- C3.  On a fresh operation tracker the call sequence create(r, auto),
create(r, auto), create(r, "foo"), create(r, "foo") yields the ids _auto0,
_auto1 and foo, with the fourth call failing as already-exists; the counter
behind auto-generated ids starts at 0, never decreases across create calls,
and every successful auto-generation returns the id `_auto<N>` for the
current counter value N and increments the counter. -/
theorem C3_operation_tracker :
    trackerStep1.1 = Except.ok "_auto0" ∧
    trackerStep2.1 = Except.ok "_auto1" ∧
    trackerStep3.1 = Except.ok "foo" ∧
    trackerStep4.1 =
      Except.error ⟨StatusCode.alreadyExists, "Operation already exists: r/operations/foo"⟩ ∧
    ({} : OperationManager).nextOperationId = 0 ∧
    (∀ (m : OperationManager) (r id : String),
      m.nextOperationId ≤ ((createOperation m r id).2).nextOperationId) ∧
    (∀ (m : OperationManager) (r s : String),
      (createOperation m r kAutoGeneratedId).1 = Except.ok s →
        s = kAutoGeneratedId ++ toString m.nextOperationId ∧
        ((createOperation m r kAutoGeneratedId).2).nextOperationId = m.nextOperationId + 1) := by
  refine ⟨by rfl, by rfl, by rfl, by rfl, rfl, ?_, ?_⟩
  · intro m r id
    unfold createOperation
    dsimp only
    split
    · split <;> simp
    · split
      · simp
      · split <;> simp
  · intro m r s h
    unfold createOperation at h ⊢
    rw [if_pos (by simp)] at h ⊢
    dsimp only at h ⊢
    by_cases hc :
        m.operationsMap.contains
          (makeOperationUri r (kAutoGeneratedId ++ toString m.nextOperationId)) = true
    · rw [if_pos hc] at h
      exact absurd h (by simp)
    · rw [if_neg hc] at h
      rw [if_neg hc]
      simp only [Except.ok.injEq] at h
      exact ⟨h.symm, rfl⟩

/-- Witness for C3: applying the auto-generation clause on the fresh manager
returns the id _auto0 and advances the counter from 0 to 1. -/
theorem C3_witness :
    "_auto0" = kAutoGeneratedId ++ toString (({} : OperationManager).nextOperationId) ∧
    ((createOperation {} "r" kAutoGeneratedId).2).nextOperationId =
      ({} : OperationManager).nextOperationId + 1 := by
  have h := C3_operation_tracker
  exact h.2.2.2.2.2.2 {} "r" "_auto0" (by rfl)

/-- Example foreign key used to witness C9. -/
def fkEx : ForeignKey :=
  ⟨"user_name", "FK_generated", "Orders", ["CustomerId"], "Customers", ["Id"]⟩

/-- C9.  The exposed foreign-key name equals the user-supplied constraint
name whenever that name is non-empty and the generated name otherwise, and a
shallow clone preserves both name fields, so the exposed name is unchanged
across clones. -/
theorem C9_foreign_key_name :
    (∀ fk : ForeignKey, fk.constraintName ≠ "" → fk.Name = fk.constraintName) ∧
    (∀ fk : ForeignKey, fk.constraintName = "" → fk.Name = fk.generatedName) ∧
    (∀ fk : ForeignKey,
      fk.shallowClone.constraintName = fk.constraintName ∧
      fk.shallowClone.generatedName = fk.generatedName) ∧
    (∀ fk : ForeignKey, fk.shallowClone.Name = fk.Name) := by
  refine ⟨?_, ?_, ?_, ?_⟩
  · intro fk h
    simp [ForeignKey.Name, h]
  · intro fk h
    simp [ForeignKey.Name, h]
  · intro fk
    exact ⟨rfl, rfl⟩
  · intro fk
    rfl

/-- Witness for C9: at a concrete named foreign key the exposed name is the
user-supplied constraint name, and the clone exposes the same name. -/
theorem C9_witness : fkEx.Name = "user_name" ∧ fkEx.shallowClone.Name = fkEx.Name := by
  have h := C9_foreign_key_name
  exact ⟨h.1 fkEx (by decide), h.2.2.2 fkEx⟩

/-- Transitivity of the lexicographic URI comparison. -/
theorem uriLe_trans : ∀ {a b c : List Char},
    uriLe a b = true → uriLe b c = true → uriLe a c = true := by
  intro a
  induction a with
  | nil => intro b c _ _; rfl
  | cons x as ih =>
    intro b c h1 h2
    cases b with
    | nil => simp [uriLe] at h1
    | cons y bs =>
      cases c with
      | nil => simp [uriLe] at h2
      | cons z cs =>
        simp only [uriLe] at h1 h2 ⊢
        by_cases hxy : x = y
        · subst hxy
          rw [if_pos rfl] at h1
          by_cases hxz : x = z
          · subst hxz
            rw [if_pos rfl] at h2 ⊢
            exact ih h1 h2
          · rw [if_neg hxz] at h2 ⊢
            exact h2
        · rw [if_neg hxy] at h1
          have hlt1 : x < y := of_decide_eq_true h1
          by_cases hyz : y = z
          · subst hyz
            rw [if_neg hxy]
            exact decide_eq_true hlt1
          · rw [if_neg hyz] at h2
            have hlt2 : y < z := of_decide_eq_true h2
            have hlt : x < z := lt_trans hlt1 hlt2
            rw [if_neg (ne_of_lt hlt)]
            exact decide_eq_true hlt

/-- Once the response holds page-size entries, the loop stops immediately and
reports the URI of the next database, if any, as the next page token. -/
theorem listDatabasesLoop_break (pageSize : Nat) (token : String) :
    ∀ (dbs : List String) (count : Nat), pageSize ≤ count →
      listDatabasesLoop pageSize token dbs count = ([], dbs.head?) := by
  intro dbs count h
  cases dbs with
  | nil => rfl
  | cons u rest => simp [listDatabasesLoop, if_pos h]

/-- Characterization of the ListDatabases loop on a URI-sorted database list:
with `count` entries already in the response, the loop emits the next
page-size-minus-count databases at or after the page token and reports the
first omitted matching database as the next page token. -/
theorem listDatabasesLoop_spec (pageSize : Nat) (token : String) :
    ∀ (dbs : List String) (count : Nat),
      List.Pairwise (fun a b => stringLe a b = true) dbs →
      (0 < count → ∀ u ∈ dbs, stringLe token u = true) →
      count < pageSize →
      listDatabasesLoop pageSize token dbs count =
        ((dbs.filter (fun u => stringLe token u)).take (pageSize - count),
          ((dbs.filter (fun u => stringLe token u)).drop (pageSize - count)).head?) := by
  intro dbs
  induction dbs with
  | nil => intro count _ _ _; simp [listDatabasesLoop]
  | cons u rest ih =>
    intro count hsorted hinv hlt
    rw [List.pairwise_cons] at hsorted
    obtain ⟨hle, hsorted'⟩ := hsorted
    simp only [listDatabasesLoop]
    rw [if_neg (by omega)]
    by_cases htok : stringLe token u = true
    · rw [if_pos htok]
      have hrestall : ∀ v ∈ rest, stringLe token v = true :=
        fun v hv => uriLe_trans htok (hle v hv)
      have hfil : (u :: rest).filter (fun v => stringLe token v) =
          u :: rest.filter (fun v => stringLe token v) := by
        simp [List.filter_cons, htok]
      by_cases hcnt : count + 1 < pageSize
      · rw [ih (count + 1) hsorted' (fun _ => hrestall) hcnt]
        rw [hfil]
        have hps : pageSize - count = (pageSize - (count + 1)) + 1 := by omega
        rw [hps]
        simp [List.take_succ_cons, List.drop_succ_cons]
      · have hcnt' : pageSize ≤ count + 1 := by omega
        rw [listDatabasesLoop_break pageSize token rest (count + 1) hcnt']
        have hps : pageSize - count = 1 := by omega
        rw [hfil, hps]
        have hfr : rest.filter (fun v => stringLe token v) = rest :=
          List.filter_eq_self.mpr hrestall
        rw [hfr]
        simp
    · rw [if_neg htok]
      have hcount : count = 0 := by
        by_contra hne
        exact htok (hinv (Nat.pos_of_ne_zero hne) u (List.mem_cons_self u rest))
      subst hcount
      rw [ih 0 hsorted' (fun h0 => absurd h0 (by omega)) (by omega)]
      have hfil : (u :: rest).filter (fun v => stringLe token v) =
          rest.filter (fun v => stringLe token v) := by
        simp [List.filter_cons, htok]
      rw [hfil]

/-- The normalized page size is at least one. -/
theorem effectivePageSize_pos (q : Int) : 1 ≤ effectivePageSize q := by
  unfold effectivePageSize
  split
  · omega
  · rename_i h
    simp only [Bool.or_eq_true, decide_eq_true_eq, not_or] at h
    omega

/-- C10.  For every ListDatabases request over the manager's URI-sorted
database list: a requested page size that is zero, negative, or greater than
1000 is treated as 1000; the response consists of the first page-size
databases whose URI is lexicographically at or after the page token, so it
contains only such databases and at most page-size many; and the next page
token is the URI of the first such database not included, absent when none
remains. -/
theorem C10_list_databases (ps : Int) (token : String) (dbs : List String)
    (hsorted : List.Pairwise (fun a b => stringLe a b = true) dbs) :
    listDatabases ps token dbs =
      ((dbs.filter (fun u => stringLe token u)).take (effectivePageSize ps),
        ((dbs.filter (fun u => stringLe token u)).drop (effectivePageSize ps)).head?) ∧
    (∀ u ∈ (listDatabases ps token dbs).1, stringLe token u = true) ∧
    (listDatabases ps token dbs).1.length ≤ effectivePageSize ps ∧
    1 ≤ effectivePageSize ps ∧ effectivePageSize ps ≤ 1000 ∧
    (∀ q : Int, q ≤ 0 ∨ 1000 < q → effectivePageSize q = 1000) := by
  have hmain : listDatabases ps token dbs =
      ((dbs.filter (fun u => stringLe token u)).take (effectivePageSize ps),
        ((dbs.filter (fun u => stringLe token u)).drop (effectivePageSize ps)).head?) := by
    unfold listDatabases
    rw [listDatabasesLoop_spec (effectivePageSize ps) token dbs 0 hsorted
      (fun h0 => absurd h0 (by omega))
      (by have := effectivePageSize_pos ps; omega)]
    rw [Nat.sub_zero]
  refine ⟨hmain, ?_, ?_, effectivePageSize_pos ps, ?_, ?_⟩
  · intro u hu
    rw [hmain] at hu
    have hu' : u ∈ dbs.filter (fun v => stringLe token v) := List.take_subset _ _ hu
    exact (List.mem_filter.mp hu').2
  · rw [hmain]
    simp only [List.length_take]
    exact min_le_left _ _
  · unfold effectivePageSize
    split
    · omega
    · rename_i h
      simp only [Bool.or_eq_true, decide_eq_true_eq, not_or] at h
      omega
  · intro q hq
    unfold effectivePageSize
    rw [if_pos]
    simp only [Bool.or_eq_true, decide_eq_true_eq]
    omega

/-- Witness for C10: on the sorted list a, b, c with page token b, a page
size of 1 returns only b with next page token c, while a requested page size
of 0 is treated as 1000 and returns everything with no next token. -/
theorem C10_witness :
    listDatabases 1 "b" ["a", "b", "c"] = (["b"], some "c") ∧
    listDatabases 0 "" ["a", "b", "c"] = (["a", "b", "c"], none) := by
  have h1 := (C10_list_databases 1 "b" ["a", "b", "c"] (by decide)).1
  have h2 := (C10_list_databases 0 "" ["a", "b", "c"] (by decide)).1
  exact ⟨h1.trans (by decide), h2.trans (by decide)⟩

/-- C4.  COLUMN is a contextual keyword in ALTER TABLE: ADD COLUMN followed
by the column name COLUMN, unquoted or backquote-quoted, succeeds and defines
a column named COLUMN; a backquote-quoted COLUMN in the position where the
COLUMN keyword is required is rejected with InvalidArgument. -/
theorem C4_column_contextual_keyword :
    parseDDLStatement {} "ALTER TABLE Users ADD COLUMN COLUMN STRING(MAX)" =
      Except.ok (DDLStatement.alterTable
        ⟨"Users", AlterTableAction.addColumn
          ⟨"COLUMN", ColType.string, none, false, none, false, false, []⟩⟩) ∧
    parseDDLStatement {} "ALTER TABLE Users ADD COLUMN `COLUMN` STRING(MAX)" =
      Except.ok (DDLStatement.alterTable
        ⟨"Users", AlterTableAction.addColumn
          ⟨"COLUMN", ColType.string, none, false, none, false, false, []⟩⟩) ∧
    (∃ msg, parseDDLStatement {} "ALTER TABLE Users ADD `COLUMN` Notes STRING(MAX)" =
      Except.error ⟨StatusCode.invalidArgument, msg⟩) := by
  exact ⟨by rfl, by rfl, ⟨"Syntax error: unsupported ALTER TABLE ADD action", by rfl⟩⟩

set_option maxRecDepth 8000 in
/-- C5.  A STRING or BYTES column length may be a hexadecimal integer
literal whose numeric value becomes the parsed length: STRING(0x42) yields
max length 66, decimal literals yield their value, and the MAX token yields
an unbounded length. -/
theorem C5_hex_column_length :
    parseDDLStatement {}
        "\n                    CREATE TABLE Sizes (\n                      Name STRING(1) NOT NULL,\n                      Email STRING(MAX),\n                      PhotoSmall BYTES(1),\n                      PhotoLarge BYTES(MAX),\n                      HexLength STRING(0x42),\n                    ) PRIMARY KEY (Name)\n                  " =
      Except.ok (DDLStatement.createTable
        ⟨"Sizes",
          [⟨"Name", ColType.string, some 1, true, none, false, false, []⟩,
            ⟨"Email", ColType.string, none, false, none, false, false, []⟩,
            ⟨"PhotoSmall", ColType.bytes, some 1, false, none, false, false, []⟩,
            ⟨"PhotoLarge", ColType.bytes, none, false, none, false, false, []⟩,
            ⟨"HexLength", ColType.string, some 66, false, none, false, false, []⟩],
          [], ["Name"], none, none⟩) := by
  rfl

set_option maxRecDepth 8000 in
/-- C7.  While a feature gate is disabled, a statement using the gated
construct fails with Unimplemented (not InvalidArgument) and the gate's
precise message: a STORED generated column, a DEFAULT clause, and a CHECK
constraint each produce their respective message, at the statements the
parser tests submit. -/
theorem C7_feature_gate_errors :
    parseDDLStatement ⟨false, false, false⟩
        "\n      CREATE TABLE T (\n        K INT64 NOT NULL,\n        V INT64,\n        G INT64 AS (K + V) STORED\n       ) PRIMARY KEY (K)\n    " =
      Except.error ⟨StatusCode.unimplemented, "Generated columns are not enabled."⟩ ∧
    parseDDLStatement ⟨false, false, false⟩
        "\n      CREATE TABLE T (\n        K INT64 NOT NULL DEFAULT (1),\n        V INT64,\n        G INT64 DEFAULT (10)\n       ) PRIMARY KEY (K)\n    " =
      Except.error ⟨StatusCode.unimplemented, "Column DEFAULT values are not enabled."⟩ ∧
    parseDDLStatement ⟨true, false, false⟩
        "CREATE TABLE T (  Id INT64,  Value INT64,  CHECK(Value > 0),  CONSTRAINT value_gt_zero CHECK(Value > 0),  CHECK(Value > 1),) PRIMARY KEY(Id)" =
      Except.error ⟨StatusCode.unimplemented, "Check Constraint is not implemented."⟩ := by
  exact ⟨by rfl, by rfl, by rfl⟩

set_option maxRecDepth 8000 in
/-- C8.  When an OPTIONS list repeats the same recognized key, parsing
succeeds and the change description preserves every entry in written order,
rather than treating the repetition as a conflict or keeping only the last
value; likewise with three repeated entries including an explicit NULL. -/
theorem C8_duplicate_options_preserved :
    parseDDLStatement {}
        "\n            CREATE TABLE Users (\n              UserId INT64,\n              UpdateTs TIMESTAMP OPTIONS (\n                allow_commit_timestamp= true,\n                allow_commit_timestamp= false\n              )\n            ) PRIMARY KEY ()\n          " =
      Except.ok (DDLStatement.createTable
        ⟨"Users",
          [⟨"UserId", ColType.int64, none, false, none, false, false, []⟩,
            ⟨"UpdateTs", ColType.timestamp, none, false, none, false, false,
              [⟨"allow_commit_timestamp", OptionValue.boolVal true⟩,
                ⟨"allow_commit_timestamp", OptionValue.boolVal false⟩]⟩],
          [], [], none, none⟩) ∧
    parseDDLStatement {}
        "CREATE TABLE T (C TIMESTAMP OPTIONS (allow_commit_timestamp = false, allow_commit_timestamp = null, allow_commit_timestamp = true)) PRIMARY KEY ()" =
      Except.ok (DDLStatement.createTable
        ⟨"T",
          [⟨"C", ColType.timestamp, none, false, none, false, false,
            [⟨"allow_commit_timestamp", OptionValue.boolVal false⟩,
              ⟨"allow_commit_timestamp", OptionValue.nullVal⟩,
              ⟨"allow_commit_timestamp", OptionValue.boolVal true⟩]⟩],
          [], [], none, none⟩) := by
  exact ⟨by rfl, by rfl⟩

/-- Skipping whitespace leaves the input unchanged when its head is not a
whitespace character. -/
theorem skipWs_cons_of_not_space {c : Char} {cs : List Char} (h : isSpaceChar c = false) :
    skipWs (c :: cs) = c :: cs := by
  simp [skipWs, h]

/-- An identifier-start character is not whitespace. -/
theorem identStart_not_space {c : Char} (h : isIdentStartChar c = true) :
    isSpaceChar c = false := by
  by_contra hs
  simp only [Bool.not_eq_false] at hs
  simp only [isSpaceChar, Bool.or_eq_true, decide_eq_true_eq] at hs
  rcases hs with ((h1 | h1) | h1) | h1 <;> subst h1 <;> exact absurd h (by decide)

/-- An identifier-start character is not the backquote. -/
theorem identStart_ne_backquote {c : Char} (h : isIdentStartChar c = true) :
    c ≠ backquoteChar := by
  intro he
  subst he
  exact absurd h (by decide)

/-- takeWhile and dropWhile split an input of satisfying characters followed
by a failing character exactly at that character. -/
theorem takeWhile_dropWhile_append {p : Char → Bool} :
    ∀ (xs : List Char) (y : Char) (ys : List Char), (∀ c ∈ xs, p c = true) → p y = false →
      (xs ++ y :: ys).takeWhile p = xs ∧ (xs ++ y :: ys).dropWhile p = y :: ys := by
  intro xs
  induction xs with
  | nil =>
    intro y ys _ hy
    simp [List.takeWhile_cons, List.dropWhile_cons, hy]
  | cons x xs ih =>
    intro y ys hall hy
    have hx : p x = true := hall x (List.mem_cons_self x xs)
    have hrest := ih y ys (fun c hc => hall c (List.mem_cons_of_mem x hc)) hy
    simp only [List.cons_append, List.takeWhile_cons, List.dropWhile_cons, hx, if_true]
    exact ⟨by rw [hrest.1], by rw [hrest.2]⟩

/-- Lexing an unquoted identifier followed directly by an opening parenthesis
consumes exactly the identifier. -/
theorem lexRawIdent_ident_paren {c : Char} {t tail : List Char}
    (hc : isIdentStartChar c = true) (ht : ∀ d ∈ t, isIdentChar d = true) :
    lexRawIdent (c :: (t ++ '(' :: tail)) =
      Except.ok ((c :: t).asString, false, '(' :: tail) := by
  have hsplit := takeWhile_dropWhile_append (p := isIdentChar) t '(' tail ht (by decide)
  unfold lexRawIdent
  rw [skipWs_cons_of_not_space (identStart_not_space hc)]
  dsimp only
  rw [if_neg (identStart_ne_backquote hc), if_pos hc]
  rw [hsplit.1, hsplit.2]

/-- Consuming an expected punctuation character at the head of the input. -/
theorem expectChar_cons {c : Char} (h : isSpaceChar c = false) (rest : List Char) :
    expectChar c (c :: rest) = Except.ok rest := by
  unfold expectChar
  rw [skipWs_cons_of_not_space h]
  simp

/-- Binding a successful Except value applies the continuation. -/
theorem exceptBind_ok {ε α β : Type} (a : α) (f : α → Except ε β) :
    (Except.ok a >>= f : Except ε β) = f a := rfl

set_option maxRecDepth 8000 in
/-- C6.  A ROW DELETION POLICY clause accepts only the predicate
OLDER_THAN(column, INTERVAL n DAY), matched case-insensitively: the
OLDER_THAN and Older_thaN spellings parse to the same change description,
while any other predicate identifier fails with InvalidArgument and the
message "Only OLDER_THAN is supported." — shown concretely for YOUNGER_THAN
and in general for every other identifier in the predicate position. -/
theorem C6_row_deletion_policy_predicate :
    parseDDLStatement {}
        "\n    CREATE TABLE T(\n      Key INT64,\n      CreatedAt TIMESTAMP,\n    ) PRIMARY KEY (Key), ROW DELETION POLICY (OLDER_THAN(CreatedAt, INTERVAL 7 DAY))\n  " =
      Except.ok (DDLStatement.createTable
        ⟨"T",
          [⟨"Key", ColType.int64, none, false, none, false, false, []⟩,
            ⟨"CreatedAt", ColType.timestamp, none, false, none, false, false, []⟩],
          [], ["Key"], none, some ⟨"CreatedAt", 7⟩⟩) ∧
    parseDDLStatement {}
        "\n    CREATE TABLE T(\n      Key INT64,\n      CreatedAt TIMESTAMP,\n    ) PRIMARY KEY (Key), ROW DELETION POLICY (Older_thaN(CreatedAt, INTERVAL 7 DAY))\n  " =
      parseDDLStatement {}
        "\n    CREATE TABLE T(\n      Key INT64,\n      CreatedAt TIMESTAMP,\n    ) PRIMARY KEY (Key), ROW DELETION POLICY (OLDER_THAN(CreatedAt, INTERVAL 7 DAY))\n  " ∧
    parseDDLStatement {}
        "\n    CREATE TABLE T(\n      Key INT64,\n      CreatedAt TIMESTAMP,\n    ) PRIMARY KEY (Key), ROW DELETION POLICY (YOUNGER_THAN(CreatedAt, INTERVAL 7 DAY))\n  " =
      Except.error ⟨StatusCode.invalidArgument, "Only OLDER_THAN is supported."⟩ ∧
    (∀ (pred : String) (c : Char) (t : List Char),
      pred.data = c :: t →
      isIdentStartChar c = true →
      (∀ d ∈ t, isIdentChar d = true) →
      upcase pred ≠ "OLDER_THAN" →
      parseRowDeletionPolicyBody
          ('(' :: (pred.data ++ '(' :: "CreatedAt, INTERVAL 7 DAY))".toList)) =
        Except.error ⟨StatusCode.invalidArgument, "Only OLDER_THAN is supported."⟩) := by
  refine ⟨by rfl, by rfl, by rfl, ?_⟩
  intro pred c t hdata hstart hall hne
  unfold parseRowDeletionPolicyBody
  rw [expectChar_cons (by decide)]
  rw [exceptBind_ok]
  rw [hdata, List.cons_append]
  rw [lexRawIdent_ident_paren hstart hall]
  rw [exceptBind_ok]
  have hps : (c :: t).asString = pred := by
    rw [← hdata]
    rfl
  rw [hps]
  dsimp only
  rw [if_neg hne]

/-- Witness for C6: applying the general predicate clause at the concrete
identifier YOUNGER_THAN yields the InvalidArgument error with the exact
message. -/
theorem C6_witness :
    parseRowDeletionPolicyBody
        ('(' :: ("YOUNGER_THAN".data ++ '(' :: "CreatedAt, INTERVAL 7 DAY))".toList)) =
      Except.error ⟨StatusCode.invalidArgument, "Only OLDER_THAN is supported."⟩ := by
  exact C6_row_deletion_policy_predicate.2.2.2 "YOUNGER_THAN" 'Y' "OUNGER_THAN".data
    (by rfl) (by decide) (by decide) (by decide)

set_option maxRecDepth 8000 in
/-- C1 counterexample.  No single reading of "the captured expression text
equals the source bytes between the outermost parentheses" holds across the
three constructs: for a column DEFAULT the captured text is "(1)", which is
not the bytes strictly between the parentheses ("1"), while for a check
constraint the captured text is "B > 0", which is not the parenthesized
form "(B > 0)". -/
theorem C1_counterexample :
    parseDDLStatement ⟨true, true, true⟩ "ALTER TABLE T ADD COLUMN D INT64 DEFAULT (1)" =
      Except.ok (DDLStatement.alterTable
        ⟨"T", AlterTableAction.addColumn
          ⟨"D", ColType.int64, none, false, some "(1)", true, false, []⟩⟩) ∧
    "(1)" ≠ "1" ∧
    parseDDLStatement ⟨true, true, true⟩ "ALTER TABLE T ADD CHECK(B > 0)" =
      Except.ok (DDLStatement.alterTable
        ⟨"T", AlterTableAction.addCheck ⟨none, "B > 0"⟩⟩) ∧
    "B > 0" ≠ "(B > 0)" := by
  exact ⟨by rfl, by decide, by rfl, by decide⟩

set_option maxRecDepth 8000 in
/-- C1 (amended).  The balanced-parenthesis capture is verbatim: whenever a
parenthesized expression body parses, the input (after leading whitespace) is
exactly the opening parenthesis, the captured bytes, the terminating close
parenthesis, and the unconsumed remainder — so the captured text equals the
source bytes strictly between the outermost parentheses, newlines and quoted
substrings included, and a close parenthesis inside a quoted substring never
terminates the expression.  Check constraints record exactly these bytes,
while generated columns and defaults record them together with the enclosing
parentheses, as the two concrete statements from the parser tests show. -/
theorem C1_expression_capture_verbatim :
    (∀ (l : List Char) (e : String) (rest : List Char),
      parseParenExpr l = Except.ok (e, rest) →
      skipWs l = '(' :: (e.data ++ ')' :: rest)) ∧
    parseDDLStatement ⟨true, true, true⟩
        "\n                CREATE TABLE T (\n                  K INT64 NOT NULL,\n                  V INT64,\n                  G INT64 AS (K + V) STORED,\n                  G2 INT64 AS (G +\n                               K * V) STORED,\n                ) PRIMARY KEY (K)" =
      Except.ok (DDLStatement.createTable
        ⟨"T",
          [⟨"K", ColType.int64, none, true, none, false, false, []⟩,
            ⟨"V", ColType.int64, none, false, none, false, false, []⟩,
            ⟨"G", ColType.int64, none, false, some "(K + V)", false, true, []⟩,
            ⟨"G2", ColType.int64, none, false,
              some "(G +\n                               K * V)", false, true, []⟩],
          [], ["K"], none, none⟩) ∧
    parseDDLStatement ⟨true, true, true⟩
        "ALTER TABLE T ADD CHECK(B > CONCAT(')\\'\"', ''''\")''', \"'\\\")\", \"\"\"'\")\"\"\"))" =
      Except.ok (DDLStatement.alterTable
        ⟨"T", AlterTableAction.addCheck
          ⟨none, "B > CONCAT(')\\'\"', ''''\")''', \"'\\\")\", \"\"\"'\")\"\"\")"⟩⟩) := by
  refine ⟨?_, by rfl, by rfl⟩
  intro l e rest h
  unfold parseParenExpr at h
  cases hec : expectChar '(' l with
  | error err =>
    rw [hec] at h
    exact absurd h (by simp [Bind.bind, Except.bind])
  | ok rest0 =>
    rw [hec] at h
    rw [exceptBind_ok] at h
    cases hscan : scanExpr (rest0.length + 1) 0 none rest0 with
    | none =>
      rw [hscan] at h
      exact absurd h (by simp)
    | some p =>
      obtain ⟨inner, rest'⟩ := p
      rw [hscan] at h
      simp only [Except.ok.injEq, Prod.mk.injEq] at h
      obtain ⟨he, hr⟩ := h
      have hv := scanExpr_verbatim (rest0.length + 1) 0 none rest0 inner rest' hscan
      have hex : skipWs l = '(' :: rest0 := by
        unfold expectChar at hec
        cases hs : skipWs l with
        | nil => rw [hs] at hec; exact absurd hec (by simp)
        | cons c' r =>
          rw [hs] at hec
          dsimp only at hec
          by_cases hc : c' = '('
          · rw [if_pos hc] at hec
            simp only [Except.ok.injEq] at hec
            rw [hc, hec]
          · rw [if_neg hc] at hec
            exact absurd hec (by simp)
      rw [← he, ← hr, hex, hv]
      rfl

/-- Witness for C1: at a concrete input whose quoted substring contains a
close parenthesis, the capture clause applies and reproduces the source
bytes, the quoted close parenthesis not terminating the expression. -/
theorem C1_witness :
    skipWs "(B > ')')x".toList = '(' :: (("B > ')'").data ++ ')' :: "x".toList) := by
  exact C1_expression_capture_verbatim.1 "(B > ')')x".toList "B > ')'" "x".toList (by rfl)
